import Mathlib

/-!
Verification of `magika-dir-stats` (`src/python/main.py`).

The program walks a directory tree with `os.walk`, skips symbolic links,
stats every regular file, classifies it with Magika, and accumulates the
file size per type label in a `defaultdict(int)`.  `format_size` renders a
byte count with binary units, `display_results` prints a table sorted by
size descending with percentages, and `main` validates the CLI path
argument before scanning.

Shallow-embedding conventions used throughout this file:

* The filesystem is a `Dir` tree whose entries carry, per file, the
  outcomes the external world would produce: whether the entry is a
  symlink, the result of `Path.stat().st_size`, and the result of
  `magika.identify_path(...)` (both as `Except`, since the source wraps
  the two calls in one `except (OSError, PermissionError)` handler).
* Output to stderr/stdout is modelled as lists of the strings passed to
  `print`; raised exceptions are modelled with `Except`.
* CPython's float arithmetic is embedded bit-exactly.  Converting an int
  to a double (`float()`, which `:.2f` applies to int operands and which
  `/ 1024.0` applies to its int left operand) rounds it to 53 significant
  bits, ties to even: `floatOfInt`.  Dividing a double by `1024.0` only
  shifts its exponent and is exact, so the running value in `format_size`
  is the dyadic rational `floatOfInt n / 1024^k`.  The percentage
  `(size / total_size) * 100` performs two correctly-rounded double
  operations, modelled by `floatDivNat` (round to nearest, ties to even,
  53-bit significand) applied twice; every double arising here is a
  dyadic rational carried exactly as a fraction.  Finally `:.2f` renders
  a double by correctly rounding its exact value to two decimals, ties
  to even: `render2Frac`.  The embedding is faithful for every input
  CPython can convert to a float (|n| < 2^1024; bigger magnitudes raise
  OverflowError, unreachable from any int64 `st_size`) and for doubles
  in the normal range (percentages of any physically possible scan).
-/

namespace MagikaDirStats

/-- One hundredths digit pair rendered with a leading zero when needed,
mirroring the fractional part of CPython's `:.2f`. -/
def pad2 (n : Nat) : String :=
  if n < 10 then "0" ++ toString n else toString n

/-- Round the rational `num / den` (with `den > 0` in all uses) to the
nearest integer, ties to even — the rounding CPython's float formatting
performs. -/
def roundHalfEvenFrac (num den : Int) : Int :=
  let f := num.fdiv den
  let r := num - den * f
  if 2 * r < den then f
  else if den < 2 * r then f + 1
  else if f % 2 = 0 then f else f + 1

/-- Render the exact value `num / den` of a double (a dyadic or small
rational carried exactly) with two decimal digits, as CPython's `:.2f`
does: correct rounding of the double's exact value, ties to even. -/
def render2Frac (num den : Int) : String :=
  let c := roundHalfEvenFrac (100 * num) den
  (if c < 0 then "-" else "") ++ toString (c.natAbs / 100) ++ "." ++ pad2 (c.natAbs % 100)

/-- Fuel-bounded floor of log2, structurally recursive so the kernel can
evaluate it; fuel 1100 covers every integer CPython can convert to a
float. -/
def log2fuel : Nat → Nat → Nat
  | 0, _ => 0
  | fuel + 1, n => if n < 2 then 0 else log2fuel fuel (n / 2) + 1

/-- CPython's `float(n)` for an int `n`, as the exact integer value of
the resulting double: round to 53 significant bits, ties to even.  The
identity for |n| ≤ 2^53; faithful for |n| < 2^1024 (beyond which
CPython raises OverflowError — unreachable from any int64 size). -/
def floatOfInt (n : Int) : Int :=
  let a := n.natAbs
  if a ≤ 2 ^ 53 then n
  else
    let k := log2fuel 1100 a - 52
    let m := roundHalfEvenFrac (a : Int) ((2 : Int) ^ k)
    let q := m * (2 : Int) ^ k
    if n < 0 then -q else q

/-- Scale `num` by 2 (counting the steps in `b`) until `num / den`
reaches the 53-bit significand range `[2^52, 2^53)`; structurally
recursive on fuel so the kernel can evaluate it. -/
def scaleToSig : Nat → Nat → Nat → Nat → Nat × Nat
  | 0, num, _, b => (num, b)
  | fuel + 1, num, den, b =>
    if num < 2 ^ 52 * den then scaleToSig fuel (num * 2) den (b + 1) else (num, b)

/-- The correctly rounded double of the rational `num / den` (for
`0 ≤ num/den < 2^52`, `den > 0`, normal range), as a pair `(m, b)`
meaning `m / 2^b`: scale into the significand range, then round to
nearest, ties to even — exactly what CPython's int/int true division
and float multiplication produce.  The fuel `54 + den` always brings
the significand into range. -/
def floatDivNat (num den : Nat) : Nat × Nat :=
  if num = 0 then (0, 0)
  else
    let s := scaleToSig (54 + den) num den 0
    ((roundHalfEvenFrac (s.1 : Int) (den : Int)).toNat, s.2)

/-- The unit loop of `format_size` after the first division.  The value
the Python loop holds after the int→float conversion and `k` exact
divisions by `1024.0` is `num / den` with `num = floatOfInt n` and
`den = 1024 ^ k` (dividing a double by 1024 only shifts its exponent);
the comparison `size_bytes < 1024.0` is `num < 1024 * den`. -/
def format_size_loop (num den : Int) : List String → String
  | [] => render2Frac num den ++ " PB"
  | u :: us =>
    if num < 1024 * den then render2Frac num den ++ " " ++ u
    else format_size_loop num (den * 1024) us

/-- Embedding of `format_size` (src/python/main.py:56-70).  The first
loop comparison `size_bytes < 1024.0` compares the exact int (CPython
compares int with float exactly, without converting); returning then
formats the int with `:.2f`, which converts it via `float()` first.
Otherwise `size_bytes /= 1024.0` converts the int to a double — the
single rounding of the whole pipeline — and the remaining iterations
compare and divide exactly on dyadics. -/
def format_size (size_bytes : Int) : String :=
  if size_bytes < 1024 then render2Frac (floatOfInt size_bytes) 1 ++ " B"
  else format_size_loop (floatOfInt size_bytes) 1024 ["KB", "MB", "GB", "TB"]

/-- The fuel-bounded log2 never overshoots: `2 ^ log2fuel fuel a ≤ a`. -/
theorem log2fuel_pow_le (fuel : Nat) : ∀ a : Nat, 1 ≤ a → 2 ^ log2fuel fuel a ≤ a := by
  induction fuel with
  | zero => intro a h; simpa [log2fuel] using h
  | succ fuel ih =>
    intro a h
    rw [log2fuel]
    by_cases h2 : a < 2
    · simpa [h2] using h
    · rw [if_neg h2, pow_succ]
      have ha : 1 ≤ a / 2 := by omega
      have := ih (a / 2) ha
      omega

/-- With enough fuel (or up to the fuel bound), `log2fuel` reaches any
exponent whose power is below `a`. -/
theorem le_log2fuel (fuel : Nat) : ∀ b a : Nat, 2 ^ b ≤ a → min b fuel ≤ log2fuel fuel a := by
  induction fuel with
  | zero => intro b a _; simp
  | succ fuel ih =>
    intro b a h
    rw [log2fuel]
    by_cases h2 : a < 2
    · have hb : b = 0 := by
        by_contra hb
        have h1 : (2 : Nat) ^ 1 ≤ 2 ^ b := Nat.pow_le_pow_right (by omega) (by omega)
        simp at h1
        omega
      simp [h2, hb]
    · rw [if_neg h2]
      cases b with
      | zero => simp
      | succ b' =>
        have h' : 2 ^ b' ≤ a / 2 := by
          rw [pow_succ] at h
          omega
        have := ih b' (a / 2) h'
        omega

/-- Half-even rounding never falls below the floor of the fraction. -/
theorem roundHalfEvenFrac_ge_fdiv (num den : Int) :
    num.fdiv den ≤ roundHalfEvenFrac num den := by
  simp only [roundHalfEvenFrac]
  split
  · exact le_refl _
  · split
    · omega
    · split <;> omega

/-- Doubles hold every integer of magnitude at most `2^53` exactly. -/
theorem floatOfInt_eq_self (n : Int) (h1 : -(2 ^ 53) ≤ n) (h2 : n ≤ 2 ^ 53) :
    floatOfInt n = n := by
  simp only [floatOfInt]
  rw [if_pos (by omega)]

/-- Rounding an int above `2^53` to a double keeps it at or above
`2^53` (so unit selection beyond TB is unaffected by the rounding). -/
theorem floatOfInt_big (n : Int) (h : (2 : Int) ^ 53 < n) : (2 : Int) ^ 53 ≤ floatOfInt n := by
  simp only [floatOfInt]
  rw [if_neg (by omega), if_neg (by omega)]
  set a := n.natAbs with ha
  set L := log2fuel 1100 a with hL
  have h53a : 2 ^ 53 ≤ a := by omega
  have hL53 : 53 ≤ L := by
    have := le_log2fuel 1100 53 a h53a
    simpa using this
  have hpow : 2 ^ L ≤ a := log2fuel_pow_le 1100 a (by omega)
  have hsplit : 52 + (L - 52) = L := by omega
  have hden : (0 : Int) < 2 ^ (L - 52) := by positivity
  have hfd : (2 : Int) ^ 52 ≤ (a : Int).fdiv ((2 : Int) ^ (L - 52)) := by
    rw [Int.fdiv_eq_ediv _ (le_of_lt hden)]
    rw [Int.le_ediv_iff_mul_le hden]
    calc (2 : Int) ^ 52 * 2 ^ (L - 52) = 2 ^ (52 + (L - 52)) := by rw [pow_add]
      _ = 2 ^ L := by rw [hsplit]
      _ ≤ (a : Int) := by exact_mod_cast hpow
  have hrd := roundHalfEvenFrac_ge_fdiv (a : Int) ((2 : Int) ^ (L - 52))
  calc (2 : Int) ^ 53 ≤ (2 : Int) ^ L := by
        apply pow_le_pow_right₀ (by norm_num) hL53
    _ = 2 ^ 52 * 2 ^ (L - 52) := by rw [← pow_add, hsplit]
    _ ≤ (a : Int).fdiv (2 ^ (L - 52)) * 2 ^ (L - 52) :=
        mul_le_mul_of_nonneg_right hfd (le_of_lt hden)
    _ ≤ roundHalfEvenFrac (a : Int) (2 ^ (L - 52)) * 2 ^ (L - 52) :=
        mul_le_mul_of_nonneg_right hrd (le_of_lt hden)

/-- C4 counterexample: 9170454741233173 is a legal int64 size whose
float conversion is one less than itself; the program prints "8.14 PB"
while the exact scaled value `n / 1024^5` rounds to "8.15 PB" — so the
output is not always "the scaled value with exactly two decimal
digits". -/
theorem format_size_units_cex :
    format_size 9170454741233173 = "8.14 PB" ∧
    render2Frac 9170454741233173 (1024 ^ 5) ++ " PB" = "8.15 PB" :=
  ⟨by decide, by decide⟩

/-- C4 (amended: the rendered value is the scaled float conversion of
`n`, which is `n / 1024^k` exactly whenever |n| ≤ 2^53 — covering the
entire B..TB range, as 1024^5 = 2^50).  `format_size` divides by 1024
while the value is at least 1024, choosing units B, KB, MB, GB, TB in
order and falling back to PB, and renders the scaled value with two
decimals, a space, and the unit; the five sample values of the spec
hold as stated. -/
theorem format_size_units_spec :
    format_size 0 = "0.00 B" ∧
    format_size 1023 = "1023.00 B" ∧
    format_size 1024 = "1.00 KB" ∧
    format_size 1536 = "1.50 KB" ∧
    format_size (1024 ^ 4) = "1.00 TB" ∧
    (∀ n : Int, 0 ≤ n → n < 1024 → format_size n = render2Frac n 1 ++ " B") ∧
    (∀ n : Int, 1024 ≤ n → n < 1024 ^ 2 → format_size n = render2Frac n 1024 ++ " KB") ∧
    (∀ n : Int, 1024 ^ 2 ≤ n → n < 1024 ^ 3 → format_size n = render2Frac n (1024 ^ 2) ++ " MB") ∧
    (∀ n : Int, 1024 ^ 3 ≤ n → n < 1024 ^ 4 → format_size n = render2Frac n (1024 ^ 3) ++ " GB") ∧
    (∀ n : Int, 1024 ^ 4 ≤ n → n < 1024 ^ 5 → format_size n = render2Frac n (1024 ^ 4) ++ " TB") ∧
    (∀ n : Int, 1024 ^ 5 ≤ n → n < 2 ^ 1024 →
      format_size n = render2Frac (floatOfInt n) (1024 ^ 5) ++ " PB") := by
  refine ⟨by decide, by decide, by decide, by decide, by decide, ?_, ?_, ?_, ?_, ?_, ?_⟩
  · intro n h1 h2
    simp only [format_size]
    rw [if_pos (by omega), floatOfInt_eq_self n (by omega) (by omega)]
  · intro n h1 h2
    simp only [format_size]
    rw [if_neg (by omega), floatOfInt_eq_self n (by omega) (by omega)]
    simp only [format_size_loop]
    rw [if_pos (by omega), String.append_assoc]
    rfl
  · intro n h1 h2
    simp only [format_size]
    rw [if_neg (by omega), floatOfInt_eq_self n (by omega) (by omega)]
    simp only [format_size_loop]
    rw [if_neg (by omega), if_pos (by omega), String.append_assoc]
    rfl
  · intro n h1 h2
    simp only [format_size]
    rw [if_neg (by omega), floatOfInt_eq_self n (by omega) (by omega)]
    simp only [format_size_loop]
    rw [if_neg (by omega), if_neg (by omega), if_pos (by omega), String.append_assoc]
    rfl
  · intro n h1 h2
    simp only [format_size]
    rw [if_neg (by omega), floatOfInt_eq_self n (by omega) (by omega)]
    simp only [format_size_loop]
    rw [if_neg (by omega), if_neg (by omega), if_neg (by omega), if_pos (by omega),
      String.append_assoc]
    rfl
  · intro n h1 h2
    have hfl : (1024 : Int) ^ 5 ≤ floatOfInt n := by
      by_cases hc : n ≤ 2 ^ 53
      · rw [floatOfInt_eq_self n (by omega) hc]
        omega
      · have := floatOfInt_big n (by omega)
        omega
    simp only [format_size]
    rw [if_neg (by omega)]
    simp only [format_size_loop]
    rw [if_neg (by omega), if_neg (by omega), if_neg (by omega), if_neg (by omega)]
    norm_num

/-- C4 witness: the KB branch at 2048. -/
theorem format_size_units_spec_witness :
    format_size 2048 = render2Frac 2048 1024 ++ " KB" :=
  format_size_units_spec.2.2.2.2.2.2.1 2048 (by decide) (by decide)

/-- C10 counterexample: at n = -(2^53 + 1) the `:.2f` formatting
converts the int via `float()`, so the program prints the rounded
"-9007199254740992.00 B" rather than the two-decimal rendering of n
itself. -/
theorem format_size_total_int_cex :
    format_size (-(2 ^ 53 + 1)) = "-9007199254740992.00 B" ∧
    render2Frac (-(2 ^ 53 + 1)) 1 ++ " B" = "-9007199254740993.00 B" :=
  ⟨by decide, by decide⟩

/-- C10 (amended: the value rendered is `float(n)`, which is `n` itself
exactly when |n| ≤ 2^53).  `format_size` accepts every integer below
1024 that CPython can convert to a float, every negative value
included: the loop's first comparison already succeeds, and the result
is the two-decimal rendering of `float(n)` followed by " B" without
scaling. -/
theorem format_size_total_int :
    (∀ n : Int, -(2 ^ 1024) < n → n < 1024 →
      format_size n = render2Frac (floatOfInt n) 1 ++ " B") ∧
    (∀ n : Int, -(2 ^ 53) ≤ n → n < 1024 → format_size n = render2Frac n 1 ++ " B") ∧
    format_size (-1) = "-1.00 B" ∧
    format_size (-1048576) = "-1048576.00 B" ∧
    format_size (-(2 ^ 53 + 1)) = "-9007199254740992.00 B" := by
  refine ⟨?_, ?_, by decide, by decide, by decide⟩
  · intro n h1 h2
    simp only [format_size]
    rw [if_pos (by omega)]
  · intro n h1 h2
    simp only [format_size]
    rw [if_pos (by omega), floatOfInt_eq_self n h1 (by omega)]

/-- C10 witness: a negative input in the exactly-representable range. -/
theorem format_size_total_int_witness : format_size (-7) = render2Frac (-7) 1 ++ " B" :=
  format_size_total_int.2.1 (-7) (by decide) (by decide)

/-- Decidable equality for `Except`, needed to evaluate the model on
concrete inputs. -/
instance exceptDecidableEq {ε α : Type} [DecidableEq ε] [DecidableEq α] :
    DecidableEq (Except ε α) := fun a b =>
  match a, b with
  | Except.error x, Except.error y =>
    if h : x = y then Decidable.isTrue (congrArg Except.error h)
    else Decidable.isFalse (fun hc => h (Except.error.inj hc))
  | Except.error _, Except.ok _ => Decidable.isFalse (fun hc => Except.noConfusion hc)
  | Except.ok _, Except.error _ => Decidable.isFalse (fun hc => Except.noConfusion hc)
  | Except.ok x, Except.ok y =>
    if h : x = y then Decidable.isTrue (congrArg Except.ok h)
    else Decidable.isFalse (fun hc => h (Except.ok.inj hc))

/-- A regular-file directory entry as `os.walk` yields it in `files`,
carrying the outcomes the external world would produce for it: whether
`filepath.is_symlink()` is true, the result of `filepath.stat().st_size`,
and the label from `magika.identify_path(filepath)` (both fallible, as
in the source's single `except (OSError, PermissionError)` handler). -/
structure FileNode where
  name : String
  isSymlink : Bool
  statResult : Except String Nat
  classifyResult : Except String String
  deriving DecidableEq

/-- A directory listing, entry by entry: `Dir.file` is a regular-file
entry, `Dir.sub` a subdirectory entry (with its own symlink flag and
contents).  `os.walk` separates a listing into `dirs` and `files`
itself, so interleaving files and subdirectories here is faithful. -/
inductive Dir where
  | empty : Dir
  | file (node : FileNode) (rest : Dir) : Dir
  | sub (name : String) (isLink : Bool) (contents : Dir) (rest : Dir) : Dir
  deriving DecidableEq

/-- The `files` component `os.walk` yields for one directory: the
regular-file entries of the listing, with their joined paths. -/
def Dir.ownFiles (root : String) : Dir → List (String × FileNode)
  | .empty => []
  | .file f rest => (root ++ "/" ++ f.name, f) :: ownFiles root rest
  | .sub _ _ _ rest => ownFiles root rest

/-- The files yielded for the subtrees below one directory: `os.walk`
(topdown, `followlinks=False`) descends into each non-symlink
subdirectory in listing order and never descends into a symlinked one. -/
def Dir.subWalk (root : String) : Dir → List (String × FileNode)
  | .empty => []
  | .file _ rest => subWalk root rest
  | .sub name isLink contents rest =>
    (if isLink then []
     else Dir.ownFiles (root ++ "/" ++ name) contents ++
       Dir.subWalk (root ++ "/" ++ name) contents) ++
    subWalk root rest

/-- All `(filepath, entry)` pairs the `for root, _, files in os.walk(...)`
loop iterates over: the current directory's files first, then each
subtree's. -/
def Dir.walk (root : String) (d : Dir) : List (String × FileNode) :=
  d.ownFiles root ++ d.subWalk root

/-- Concatenation of two directory listings (used to place an entry at an
arbitrary position in a listing). -/
def Dir.app : Dir → Dir → Dir
  | .empty, d => d
  | .file f rest, d => .file f (rest.app d)
  | .sub n l c rest, d => .sub n l c (rest.app d)

/-- One warning printed to stderr by the scan's `except` handler; rendered
by `Warning.render`. -/
structure Warning where
  path : String
  errMsg : String
  deriving DecidableEq

/-- The exact stderr line `print(f"Warning: Could not process {filepath}: {e}",
file=sys.stderr)` produces. -/
def Warning.render (w : Warning) : String :=
  "Warning: Could not process " ++ w.path ++ ": " ++ w.errMsg

/-- State threaded through the scan loop: the `defaultdict` accumulator
(as an insertion-ordered association list, like a Python dict), the
stderr warnings, and ghost logs of which paths were passed to
`Path.stat` and to `magika.identify_path`. -/
structure ScanState where
  map : List (String × Nat)
  warnings : List Warning
  statCalls : List String
  classifyCalls : List String
  deriving DecidableEq

/-- The state before the walk: empty accumulator, nothing printed, no
external calls made. -/
def initState : ScanState := ⟨[], [], [], []⟩

/-- `file_type_sizes[file_type] += file_size` on a `defaultdict(int)`
represented as an insertion-ordered association list: add to the first
entry with this key, or append a fresh entry at the end. -/
def addSize : List (String × Nat) → String → Nat → List (String × Nat)
  | [], label, size => [(label, size)]
  | (k, v) :: rest, label, size =>
    if k = label then (k, v + size) :: rest else (k, v) :: addSize rest label size

/-- The body of the scan loop (src/python/main.py:29-51) for one entry:
skip symlinks; otherwise stat, then classify, then accumulate; a failure
of either call produces one warning and leaves the accumulator alone. -/
def scanStep (st : ScanState) (e : String × FileNode) : ScanState :=
  if e.2.isSymlink then st
  else
    match e.2.statResult with
    | .error msg =>
      { st with statCalls := st.statCalls ++ [e.1],
                warnings := st.warnings ++ [⟨e.1, msg⟩] }
    | .ok size =>
      match e.2.classifyResult with
      | .error msg =>
        { st with statCalls := st.statCalls ++ [e.1],
                  classifyCalls := st.classifyCalls ++ [e.1],
                  warnings := st.warnings ++ [⟨e.1, msg⟩] }
      | .ok label =>
        { st with statCalls := st.statCalls ++ [e.1],
                  classifyCalls := st.classifyCalls ++ [e.1],
                  map := addSize st.map label size }

/-- The scan loop over an explicit list of walked entries. -/
def scanFiles (entries : List (String × FileNode)) : ScanState :=
  entries.foldl scanStep initState

/-- Embedding of `scan_directory` (src/python/main.py:16-53): run the
loop body over everything `os.walk` yields. -/
def scan_directory (root : String) (d : Dir) : ScanState :=
  scanFiles (d.walk root)

/-- The `(label, size)` pair an entry contributes when it is processed
successfully: non-symlink, stat ok, classify ok. -/
def successPair (e : String × FileNode) : Option (String × Nat) :=
  if e.2.isSymlink then none
  else
    match e.2.statResult, e.2.classifyResult with
    | .ok size, .ok label => some (label, size)
    | _, _ => none

/-- The warning an entry produces, if any: non-symlink entries whose stat
or classification fails. -/
def warnOf (e : String × FileNode) : Option Warning :=
  if e.2.isSymlink then none
  else
    match e.2.statResult with
    | .error msg => some ⟨e.1, msg⟩
    | .ok _ =>
      match e.2.classifyResult with
      | .error msg => some ⟨e.1, msg⟩
      | .ok _ => none

/-- The path passed to `Path.stat` for this entry, if the call is made:
every non-symlink entry is stat'd. -/
def statCallOf (e : String × FileNode) : Option String :=
  if e.2.isSymlink then none else some e.1

/-- The path passed to `magika.identify_path` for this entry, if the
call is made: non-symlink entries whose stat succeeded. -/
def classifyCallOf (e : String × FileNode) : Option String :=
  if e.2.isSymlink then none
  else
    match e.2.statResult with
    | .error _ => none
    | .ok _ => some e.1

/-- The number of bytes an entry contributes to the aggregate: its size
when successfully processed, zero otherwise. -/
def procSize (e : String × FileNode) : Nat :=
  match successPair e with
  | some kv => kv.2
  | none => 0

/-- The error text of a failing entry (the stat error, or else the
classification error). -/
def errOf (f : FileNode) : String :=
  match f.statResult with
  | .error msg => msg
  | .ok _ =>
    match f.classifyResult with
    | .error msg => msg
    | .ok _ => ""

/-- Python dict lookup with default 0 (keys in the accumulator are
unique, so first match is the entry). -/
def lookup0 : List (String × Nat) → String → Nat
  | [], _ => 0
  | (k, v) :: rest, label => if k = label then v else lookup0 rest label

/-- `sum(file_type_sizes.values())`. -/
def valuesSum (m : List (String × Nat)) : Nat :=
  (m.map (fun kv => kv.2)).sum

/-- Accumulating a sequence of `(label, size)` pairs into an empty map,
exactly as the scan loop does for its successful entries. -/
def accumulate (ps : List (String × Nat)) : List (String × Nat) :=
  ps.foldl (fun m kv => addSize m kv.1 kv.2) []

/-- Lookup after one accumulator update: the updated key gains `v`,
every other key is untouched. -/
theorem lookup0_addSize (m : List (String × Nat)) (k : String) (v : Nat) (key : String) :
    lookup0 (addSize m k v) key = lookup0 m key + if k = key then v else 0 := by
  induction m with
  | nil =>
    by_cases h : k = key <;> simp [addSize, lookup0, h]
  | cons hd tl ih =>
    obtain ⟨hk, hv⟩ := hd
    by_cases h1 : hk = k
    · subst h1
      by_cases h2 : hk = key
      · subst h2
        simp [addSize, lookup0]
      · simp [addSize, lookup0, h2]
    · by_cases h2 : hk = key
      · subst h2
        simp [addSize, lookup0, h1]
        intro h
        exact absurd h.symm h1
      · simp [addSize, lookup0, h1, h2, ih]

/-- One accumulator update adds exactly the file's size to the sum of
the map's values. -/
theorem valuesSum_addSize (m : List (String × Nat)) (k : String) (v : Nat) :
    valuesSum (addSize m k v) = valuesSum m + v := by
  induction m with
  | nil => simp [addSize, valuesSum]
  | cons hd tl ih =>
    obtain ⟨hk, hv⟩ := hd
    simp [valuesSum] at ih
    by_cases h : hk = k <;> simp [addSize, valuesSum, h, ih] <;> omega

/-- Full characterisation of the scan loop: the accumulator folds the
successful `(label, size)` pairs, and the warnings and the two call logs
are the per-entry contributions in walk order. -/
theorem scanFiles_foldl (l : List (String × FileNode)) (st : ScanState) :
    List.foldl scanStep st l =
      ⟨(l.filterMap successPair).foldl (fun m kv => addSize m kv.1 kv.2) st.map,
       st.warnings ++ l.filterMap warnOf,
       st.statCalls ++ l.filterMap statCallOf,
       st.classifyCalls ++ l.filterMap classifyCallOf⟩ := by
  induction l generalizing st with
  | nil => simp
  | cons e rest ih =>
    obtain ⟨p, f⟩ := e
    obtain ⟨name, sym, statR, clsR⟩ := f
    cases sym <;> cases statR <;> cases clsR <;>
      simp [scanStep, successPair, warnOf, statCallOf, classifyCallOf, ih]

/-- The scan from the initial state, component by component. -/
theorem scanFiles_eq (l : List (String × FileNode)) :
    scanFiles l =
      ⟨accumulate (l.filterMap successPair),
       l.filterMap warnOf, l.filterMap statCallOf, l.filterMap classifyCallOf⟩ := by
  simpa [scanFiles, initState, accumulate] using scanFiles_foldl l initState

/-- Folding `(label, size)` pairs into the accumulator adds exactly
their sizes to the sum of values. -/
theorem valuesSum_foldl (ps : List (String × Nat)) (m : List (String × Nat)) :
    valuesSum (ps.foldl (fun m kv => addSize m kv.1 kv.2) m) =
      valuesSum m + (ps.map (fun kv => kv.2)).sum := by
  induction ps generalizing m with
  | nil => simp
  | cons kv rest ih => simp [ih, valuesSum_addSize]; omega

/-- The accumulator's value at one key is the sum of the folded sizes
carrying that key. -/
theorem lookup0_foldl (ps : List (String × Nat)) (m : List (String × Nat)) (key : String) :
    lookup0 (ps.foldl (fun m kv => addSize m kv.1 kv.2) m) key =
      lookup0 m key + ((ps.filter (fun kv => kv.1 == key)).map (fun kv => kv.2)).sum := by
  induction ps generalizing m with
  | nil => simp
  | cons kv rest ih =>
    simp only [List.foldl_cons, List.filter_cons]
    rw [ih, lookup0_addSize]
    by_cases h : kv.1 = key
    · simp [h]
      omega
    · simp [h]

/-- Summing the sizes of the successful pairs is summing `procSize` over
all entries (skipped entries contribute 0). -/
theorem sum_filterMap_successPair (l : List (String × FileNode)) :
    ((l.filterMap successPair).map (fun kv => kv.2)).sum = (l.map procSize).sum := by
  induction l with
  | nil => rfl
  | cons e rest ih =>
    cases h : successPair e <;> simp [List.filterMap_cons, h, procSize, ih]

/-- A warning always carries the path of the entry that produced it. -/
theorem warnOf_path {e : String × FileNode} {w : Warning} (h : warnOf e = some w) :
    w.path = e.1 := by
  obtain ⟨p, f⟩ := e
  obtain ⟨name, sym, statR, clsR⟩ := f
  cases sym <;> cases statR <;> cases clsR <;> simp [warnOf] at h <;> simp [← h]

/-- Removing an entry that contributes nothing does not change a
`filterMap`. -/
theorem filterMap_middle_none {α β : Type} (g : α → Option β) (l1 l2 : List α) (a : α)
    (h : g a = none) :
    (l1 ++ a :: l2).filterMap g = (l1 ++ l2).filterMap g := by
  simp [List.filterMap_append, List.filterMap_cons, h]

/-- A symlinked file entry anywhere in the walked list leaves the whole
scan state unchanged: no accumulation, no warning, no stat call, no
classifier call. -/
theorem scanFiles_skip_symlink (l1 l2 : List (String × FileNode)) (p : String) (f : FileNode)
    (h : f.isSymlink = true) :
    scanFiles (l1 ++ (p, f) :: l2) = scanFiles (l1 ++ l2) := by
  rw [scanFiles_eq, scanFiles_eq]
  rw [filterMap_middle_none successPair l1 l2 (p, f) (by simp [successPair, h]),
    filterMap_middle_none warnOf l1 l2 (p, f) (by simp [warnOf, h]),
    filterMap_middle_none statCallOf l1 l2 (p, f) (by simp [statCallOf, h]),
    filterMap_middle_none classifyCallOf l1 l2 (p, f) (by simp [classifyCallOf, h])]

/-- `ownFiles` distributes over listing concatenation. -/
theorem ownFiles_app (root : String) (d1 d2 : Dir) :
    (d1.app d2).ownFiles root = d1.ownFiles root ++ d2.ownFiles root := by
  induction d1 with
  | empty => simp [Dir.app, Dir.ownFiles]
  | file f rest ih => simp [Dir.app, Dir.ownFiles, ih]
  | sub n l c rest ihc ih => simp [Dir.app, Dir.ownFiles, ih]

/-- `subWalk` distributes over listing concatenation. -/
theorem subWalk_app (root : String) (d1 d2 : Dir) :
    (d1.app d2).subWalk root = d1.subWalk root ++ d2.subWalk root := by
  induction d1 with
  | empty => simp [Dir.app, Dir.subWalk]
  | file f rest ih => simp [Dir.app, Dir.subWalk, ih]
  | sub n l c rest ihc ih => simp [Dir.app, Dir.subWalk, ih]

/-- A symlinked subdirectory entry, at any position in a listing,
contributes nothing to the walk: `os.walk` never descends into it,
whatever it contains. -/
theorem walk_skip_symlink_dir (root : String) (d1 d2 contents : Dir) (name : String) :
    Dir.walk root (d1.app (.sub name true contents d2)) = Dir.walk root (d1.app d2) := by
  simp [Dir.walk, ownFiles_app, subWalk_app, Dir.ownFiles, Dir.subWalk]

/-- The walk of a listing with a file entry in the middle, decomposed
around that entry. -/
theorem walk_app_file (root : String) (d1 d2 : Dir) (f : FileNode) :
    Dir.walk root (d1.app (.file f d2)) =
      d1.ownFiles root ++ (root ++ "/" ++ f.name, f) ::
        (d2.ownFiles root ++ (d1.subWalk root ++ d2.subWalk root)) := by
  simp [Dir.walk, ownFiles_app, subWalk_app, Dir.ownFiles, Dir.subWalk]

/-- C1.  The scan's per-type values sum exactly to the sizes of the
successfully processed non-symlink files, and each per-label value is
the sum of the sizes the classifier labelled with that key; entries
skipped as symlinks or failures contribute `procSize = 0` to the total
and no success pair to any label. -/
theorem scan_accumulates_exact_sizes (l : List (String × FileNode)) :
    valuesSum (scanFiles l).map = (l.map procSize).sum ∧
    ∀ label : String,
      lookup0 (scanFiles l).map label =
        (((l.filterMap successPair).filter (fun kv => kv.1 == label)).map
          (fun kv => kv.2)).sum := by
  constructor
  · rw [scanFiles_eq]
    show valuesSum (accumulate (l.filterMap successPair)) = _
    rw [accumulate, valuesSum_foldl, sum_filterMap_successPair]
    simp [valuesSum]
  · intro label
    rw [scanFiles_eq]
    show lookup0 (accumulate (l.filterMap successPair)) label = _
    rw [accumulate, lookup0_foldl]
    simp [lookup0]

/-- C2.  A non-symlink entry whose stat or classification fails leaves
the accumulator exactly as if the entry were absent (even when the size
was read before classification failed), contributes its single warning —
carrying its own path — between the warnings of the surrounding entries,
and the rest of the walk is still processed; when no other entry shares
its path, exactly one warning references that path. -/
theorem scan_warns_and_skips_failing_file
    (l1 l2 : List (String × FileNode)) (p : String) (f : FileNode)
    (hsym : f.isSymlink = false)
    (hfail : (∃ m, f.statResult = Except.error m) ∨
      (∃ sz m, f.statResult = Except.ok sz ∧ f.classifyResult = Except.error m)) :
    (scanFiles (l1 ++ (p, f) :: l2)).map = (scanFiles (l1 ++ l2)).map ∧
    (scanFiles (l1 ++ (p, f) :: l2)).warnings =
      (scanFiles l1).warnings ++ [⟨p, errOf f⟩] ++ (scanFiles l2).warnings ∧
    ((∀ e ∈ l1 ++ l2, e.1 ≠ p) →
      ((scanFiles (l1 ++ (p, f) :: l2)).warnings.countP (fun w => w.path == p)) = 1) := by
  have hsp : successPair (p, f) = none := by
    rcases hfail with ⟨m, hm⟩ | ⟨sz, m, hsz, hm⟩ <;> simp [successPair, hsym, hm]
  have hw : warnOf (p, f) = some ⟨p, errOf f⟩ := by
    rcases hfail with ⟨m, hm⟩ | ⟨sz, m, hsz, hm⟩
    · simp [warnOf, errOf, hsym, hm]
    · simp [warnOf, errOf, hsym, hm, hsz]
  refine ⟨?_, ?_, ?_⟩
  · rw [scanFiles_eq, scanFiles_eq, filterMap_middle_none successPair l1 l2 (p, f) hsp]
  · rw [scanFiles_eq, scanFiles_eq, scanFiles_eq]
    simp [List.filterMap_append, List.filterMap_cons, hw]
  · intro hp
    rw [scanFiles_eq]
    simp only [List.filterMap_append, List.filterMap_cons, hw]
    have hzero : ∀ l : List (String × FileNode), (∀ e ∈ l, e.1 ≠ p) →
        (l.filterMap warnOf).countP (fun w => w.path == p) = 0 := by
      intro l hl
      rw [List.countP_eq_zero]
      intro w hwmem
      obtain ⟨e, hemem, hwe⟩ := List.mem_filterMap.mp hwmem
      have := warnOf_path hwe
      simp [this, hl e hemem]
    rw [List.countP_append, hzero l1 (fun e he => hp e (List.mem_append_left _ he)),
      List.countP_cons, hzero l2 (fun e he => hp e (List.mem_append_right _ he))]
    simp

/-- C3.  An entry that is itself a symbolic link is skipped entirely:
a symlinked file changes nothing in the scan state (it is never stat'd,
never classified, adds no bytes and no warning), and a symlinked
directory is never descended into by the walk, whatever it contains —
both stated at any position in a listing. -/
theorem symlinks_never_followed :
    (∀ (l1 l2 : List (String × FileNode)) (p : String) (f : FileNode),
      f.isSymlink = true → scanFiles (l1 ++ (p, f) :: l2) = scanFiles (l1 ++ l2)) ∧
    (∀ (root : String) (d1 d2 contents : Dir) (name : String),
      Dir.walk root (d1.app (.sub name true contents d2)) = Dir.walk root (d1.app d2)) ∧
    (∀ (root : String) (d1 d2 : Dir) (f : FileNode),
      f.isSymlink = true →
      scan_directory root (d1.app (.file f d2)) = scan_directory root (d1.app d2)) ∧
    (∀ (root : String) (d1 d2 contents : Dir) (name : String),
      scan_directory root (d1.app (.sub name true contents d2)) =
        scan_directory root (d1.app d2)) := by
  refine ⟨scanFiles_skip_symlink, walk_skip_symlink_dir, ?_, ?_⟩
  · intro root d1 d2 f hf
    show scanFiles _ = scanFiles _
    rw [walk_app_file]
    rw [scanFiles_skip_symlink _ _ _ _ hf]
    simp [Dir.walk, ownFiles_app, subWalk_app]
  · intro root d1 d2 contents name
    show scanFiles _ = scanFiles _
    rw [walk_skip_symlink_dir]

/-- Concrete entries used by witnesses: a symlinked file, a file whose
stat fails, and a file processed successfully. -/
def symNode : FileNode := ⟨"s", true, Except.ok 9, Except.ok "text"⟩

/-- A file whose stat raises. -/
def statFailNode : FileNode := ⟨"a", false, Except.error "denied", Except.ok "text"⟩

/-- A file processed successfully. -/
def okNode : FileNode := ⟨"g", false, Except.ok 5, Except.ok "text"⟩

/-- C3 witness: a concrete symlinked file among two entries. -/
theorem symlinks_never_followed_witness :
    scanFiles ([] ++ ("r/s", symNode) :: [("r/g", okNode)]) =
      scanFiles ([] ++ [("r/g", okNode)]) :=
  symlinks_never_followed.1 [] [("r/g", okNode)] "r/s" symNode rfl

/-- C2 witness: a concrete stat failure followed by a good entry. -/
theorem scan_warns_and_skips_failing_file_witness :
    (scanFiles ([] ++ ("r/a", statFailNode) :: [("r/g", okNode)])).map =
      (scanFiles ([] ++ [("r/g", okNode)])).map ∧
    (scanFiles ([] ++ ("r/a", statFailNode) :: [("r/g", okNode)])).warnings =
      (scanFiles []).warnings ++ [⟨"r/a", errOf statFailNode⟩] ++
        (scanFiles [("r/g", okNode)]).warnings ∧
    ((∀ e ∈ [] ++ [("r/g", okNode)], e.1 ≠ "r/a") →
      ((scanFiles ([] ++ ("r/a", statFailNode) :: [("r/g", okNode)])).warnings.countP
        (fun w => w.path == "r/a")) = 1) :=
  scan_warns_and_skips_failing_file [] [("r/g", okNode)] "r/a" statFailNode rfl
    (Or.inl ⟨"denied", rfl⟩)

/-- C7.  The aggregate is order-independent: the scan's accumulator is
the fold of its successful `(label, size)` pairs, and for any
permutation of those pairs the accumulated map is extensionally
identical (Python dict equality), per-key addition being commutative
and associative. -/
theorem scan_order_independent :
    (∀ l : List (String × FileNode),
      (scanFiles l).map = accumulate (l.filterMap successPair)) ∧
    (∀ p q : List (String × Nat), p.Perm q →
      ∀ key : String, lookup0 (accumulate p) key = lookup0 (accumulate q) key) := by
  constructor
  · intro l
    rw [scanFiles_eq]
  · intro p q hpq key
    rw [accumulate, accumulate, lookup0_foldl, lookup0_foldl]
    have := ((hpq.filter (fun kv => kv.1 == key)).map (fun kv => kv.2)).sum_eq
    simp [this]

/-- C7 witness: a concrete permutation of three pairs. -/
theorem scan_order_independent_witness :
    lookup0 (accumulate [("a", 1), ("b", 2), ("a", 3)]) "a" =
      lookup0 (accumulate [("b", 2), ("a", 3), ("a", 1)]) "a" :=
  scan_order_independent.2 [("a", 1), ("b", 2), ("a", 3)] [("b", 2), ("a", 3), ("a", 1)]
    (by decide) "a"

/-- Python's `s:<w` — left-justify in `w` characters, padding with
spaces (strings longer than `w` are left alone). -/
def padRight (s : String) (w : Nat) : String :=
  s ++ String.mk (List.replicate (w - s.length) ' ')

/-- Python's `s:>w` — right-justify in `w` characters. -/
def padLeft (s : String) (w : Nat) : String :=
  String.mk (List.replicate (w - s.length) ' ') ++ s

/-- The 70-character `=` rule printed around the table. -/
def sep70 : String := String.mk (List.replicate 70 '=')

/-- The table header `f"{'File Type':<30} {'Size':<20} {'Percentage':>10}"`. -/
def headerRow : String :=
  padRight "File Type" 30 ++ " " ++ padRight "Size" 20 ++ " " ++ padLeft "Percentage" 10

/-- The double the program computes for `(size / total_size) * 100`
(with `total > 0`): one correctly rounded division, then one correctly
rounded multiplication by 100, returned as the exact fraction of the
resulting double.  This can differ from the exactly rounded
`100 * size / total` on double-rounding boundaries (e.g. 107 of
4000). -/
def pyFloatPercent (size total : Nat) : Int × Int :=
  let d1 := floatDivNat size total
  let d2 := floatDivNat (100 * d1.1) (2 ^ d1.2)
  ((d2.1 : Int), ((2 : Int) ^ d2.2))

/-- Python's `size / total_size` followed by `* 100`: raises
`ZeroDivisionError` when the denominator is zero, otherwise the double
`(size / total) * 100` as an exact numerator/denominator pair. -/
def percentageOf (size total : Nat) : Except String (Int × Int) :=
  if total = 0 then Except.error "ZeroDivisionError"
  else Except.ok (pyFloatPercent size total)

/-- The row-printing loop of `display_results`: one line per entry —
label, formatted size, percentage to two decimals — aborted by the
first raised `ZeroDivisionError`. -/
def renderRows (total : Nat) : List (String × Nat) → Except String (List String)
  | [] => Except.ok []
  | kv :: rest =>
    match percentageOf kv.2 total with
    | Except.error e => Except.error e
    | Except.ok pct =>
      match renderRows total rest with
      | Except.error e => Except.error e
      | Except.ok rows =>
        Except.ok ((padRight kv.1 30 ++ " " ++ padRight (format_size (kv.2 : Int)) 20 ++ " " ++
          padLeft (render2Frac pct.1 pct.2) 9 ++ "%") :: rows)

/-- The comparison `sorted(items, key=lambda x: x[1], reverse=True)`
sorts by: earlier element stays first when its size is at least the
later one's (a stable descending sort on the value). -/
def bySizeDesc (a b : String × Nat) : Prop := b.2 ≤ a.2

instance : DecidableRel bySizeDesc := fun a b => inferInstanceAs (Decidable (b.2 ≤ a.2))

instance : IsTotal (String × Nat) bySizeDesc :=
  ⟨fun a b => (Nat.le_total a.2 b.2).symm⟩

instance : IsTrans (String × Nat) bySizeDesc :=
  ⟨fun _ _ _ hab hbc => le_trans hbc hab⟩

/-- The total row `f"{'Total':<30} {format_size(total_size):<20} {'100.00%':>10}"`. -/
def totalRow (total : Nat) : String :=
  padRight "Total" 30 ++ " " ++ padRight (format_size (total : Int)) 20 ++ " " ++
    padLeft "100.00%" 10

/-- Embedding of `display_results` (src/python/main.py:73-103): the list
of lines printed to stdout, or the uncaught exception.  The early return
prints the single no-files message; otherwise the table is printed with
rows sorted by size descending (Python's `sorted` with `reverse=True` is
a stable descending sort, which `List.insertionSort bySizeDesc` is too). -/
def display_results (m : List (String × Nat)) : Except String (List String) :=
  if m.isEmpty then Except.ok ["No files found."]
  else
    let total := valuesSum m
    let sorted_items := List.insertionSort bySizeDesc m
    match renderRows total sorted_items with
    | Except.error e => Except.error e
    | Except.ok rows =>
      Except.ok (["\n" ++ sep70, headerRow, sep70] ++ rows ++
        [sep70, totalRow total, sep70 ++ "\n"])

/-- When the total is nonzero, the row loop renders every entry. -/
theorem renderRows_ok (total : Nat) (h : total ≠ 0) (l : List (String × Nat)) :
    renderRows total l =
      Except.ok (l.map (fun kv =>
        padRight kv.1 30 ++ " " ++ padRight (format_size (kv.2 : Int)) 20 ++ " " ++
          padLeft (render2Frac (pyFloatPercent kv.2 total).1 (pyFloatPercent kv.2 total).2) 9
            ++ "%")) := by
  induction l with
  | nil => rfl
  | cons kv rest ih => simp [renderRows, percentageOf, h, ih]

/-- When the total is zero and there is at least one row, the first
division raises. -/
theorem renderRows_zero (kv : String × Nat) (l : List (String × Nat)) :
    renderRows 0 (kv :: l) = Except.error "ZeroDivisionError" := by
  simp [renderRows, percentageOf]

/-- A non-empty map whose values are all zero makes `display_results`
raise `ZeroDivisionError`. -/
theorem display_results_zero_total (m : List (String × Nat)) (hne : m ≠ [])
    (hz : valuesSum m = 0) :
    display_results m = Except.error "ZeroDivisionError" := by
  have hempty : m.isEmpty = false := by
    cases m with
    | nil => exact absurd rfl hne
    | cons kv rest => rfl
  rw [display_results]
  rw [hempty]
  simp only [Bool.false_eq_true, if_false]
  have hlen : List.insertionSort bySizeDesc m ≠ [] := by
    intro hs
    have := (List.perm_insertionSort bySizeDesc m).length_eq
    rw [hs] at this
    cases m with
    | nil => exact hne rfl
    | cons kv rest => simp at this
  cases hsort : List.insertionSort bySizeDesc m with
  | nil => exact absurd hsort hlen
  | cons kv rest =>
    rw [hz, renderRows_zero]

/-- The sum of the map's values is positive exactly when some entry's
value is positive. -/
theorem valuesSum_pos_iff (m : List (String × Nat)) :
    0 < valuesSum m ↔ ∃ kv ∈ m, 0 < kv.2 := by
  induction m with
  | nil => simp [valuesSum]
  | cons kv rest ih =>
    simp only [valuesSum, List.map_cons, List.sum_cons] at *
    constructor
    · intro h
      by_cases hkv : 0 < kv.2
      · exact ⟨kv, List.mem_cons_self kv rest, hkv⟩
      · have : 0 < (rest.map (fun kv => kv.2)).sum := by omega
        obtain ⟨e, he, hpos⟩ := ih.mp this
        exact ⟨e, List.mem_cons_of_mem kv he, hpos⟩
    · rintro ⟨e, he, hpos⟩
      rcases List.mem_cons.mp he with rfl | he'
      · omega
      · have := ih.mpr ⟨e, he', hpos⟩
        omega

/-- When the map is non-empty and the total positive, `display_results`
prints the full table over a sorted permutation of the entries. -/
theorem display_results_table (m : List (String × Nat)) (hne : m ≠ [])
    (hpos : 0 < valuesSum m) :
    display_results m =
      Except.ok (["\n" ++ sep70, headerRow, sep70] ++
        (List.insertionSort bySizeDesc m).map (fun kv =>
          padRight kv.1 30 ++ " " ++ padRight (format_size (kv.2 : Int)) 20 ++ " " ++
            padLeft (render2Frac (pyFloatPercent kv.2 (valuesSum m)).1
              (pyFloatPercent kv.2 (valuesSum m)).2) 9 ++ "%") ++
        [sep70, totalRow (valuesSum m), sep70 ++ "\n"]) := by
  have hempty : m.isEmpty = false := by
    cases m with
    | nil => exact absurd rfl hne
    | cons kv rest => rfl
  rw [display_results]
  rw [hempty]
  simp only [Bool.false_eq_true, if_false]
  rw [renderRows_ok (valuesSum m) (by omega) (List.insertionSort bySizeDesc m)]

/-- C5 counterexample, two ways the claim fails on the code.  First, a
non-empty map (one entry of size 0) makes `display_results` raise
`ZeroDivisionError` instead of rendering any report.  Second, a row's
percentage is not always `100 * size / total` rounded to two decimals:
for size 107 of total 4000 the exact value 2.675 rounds to "2.68", but
the program's doubles land just below the boundary and its row prints
"2.67%". -/
theorem display_results_report_cex :
    display_results [("a", 0)] = Except.error "ZeroDivisionError" ∧
    renderRows 4000 [("a", 107)] =
      Except.ok [padRight "a" 30 ++ " " ++ padRight (format_size 107) 20 ++ " " ++
        padLeft "2.67" 9 ++ "%"] ∧
    render2Frac (100 * 107) 4000 = "2.68" :=
  ⟨display_results_zero_total [("a", 0)] (by decide) (by decide), by decide, by decide⟩

/-- C5 (amended: for every non-empty map whose values sum to a positive
total, and with the percentage read as the program's double).  The
report consists of one row per entry, over a permutation of the map
sorted by size descending; each row shows the label, the formatted
size, and the two-decimal rendering of the double `(size / total) * 100`
— equal to `100 * size / total` rounded to two decimals except on
double-rounding boundary cases; the total row shows "Total", the
formatted total, and the literal "100.00%". -/
theorem display_results_report_spec (m : List (String × Nat)) (hne : m ≠ [])
    (hpos : 0 < valuesSum m) :
    ∃ sorted_m : List (String × Nat),
      m.Perm sorted_m ∧
      List.Sorted bySizeDesc sorted_m ∧
      display_results m =
        Except.ok (["\n" ++ sep70, headerRow, sep70] ++
          sorted_m.map (fun kv =>
            padRight kv.1 30 ++ " " ++ padRight (format_size (kv.2 : Int)) 20 ++ " " ++
              padLeft (render2Frac (pyFloatPercent kv.2 (valuesSum m)).1
                (pyFloatPercent kv.2 (valuesSum m)).2) 9 ++ "%") ++
          [sep70, totalRow (valuesSum m), sep70 ++ "\n"]) :=
  ⟨List.insertionSort bySizeDesc m,
   (List.perm_insertionSort bySizeDesc m).symm,
   List.sorted_insertionSort bySizeDesc m,
   display_results_table m hne hpos⟩

/-- C5 witness: the report for a concrete two-entry map. -/
theorem display_results_report_spec_witness :
    ∃ sorted_m : List (String × Nat),
      List.Perm [("a", 1), ("b", 3)] sorted_m ∧
      List.Sorted bySizeDesc sorted_m ∧
      display_results [("a", 1), ("b", 3)] =
        Except.ok (["\n" ++ sep70, headerRow, sep70] ++
          sorted_m.map (fun kv =>
            padRight kv.1 30 ++ " " ++ padRight (format_size (kv.2 : Int)) 20 ++ " " ++
              padLeft (render2Frac (pyFloatPercent kv.2 (valuesSum [("a", 1), ("b", 3)])).1
                (pyFloatPercent kv.2 (valuesSum [("a", 1), ("b", 3)])).2) 9 ++ "%") ++
          [sep70, totalRow (valuesSum [("a", 1), ("b", 3)]), sep70 ++ "\n"]) :=
  display_results_report_spec [("a", 1), ("b", 3)] (by decide) (by decide)

/-- C8.  An empty map produces the single no-files message and no table,
and a scan that processes no eligible file (every walked entry a symlink
or a failure) returns the empty map, not an error. -/
theorem empty_map_behavior :
    display_results [] = Except.ok ["No files found."] ∧
    (∀ (root : String) (d : Dir),
      (∀ e ∈ Dir.walk root d, successPair e = none) →
      (scan_directory root d).map = []) := by
  refine ⟨rfl, fun root d h => ?_⟩
  show (scanFiles (Dir.walk root d)).map = []
  rw [scanFiles_eq]
  show accumulate ((Dir.walk root d).filterMap successPair) = []
  rw [List.filterMap_eq_nil_iff.mpr h]
  rfl

/-- C8 witness: a tree holding only a symlinked subdirectory (with a
real file inside) and a symlinked file. -/
theorem empty_map_behavior_witness :
    (scan_directory "r"
      (Dir.sub "s" true (Dir.file okNode Dir.empty) (Dir.file symNode Dir.empty))).map = [] :=
  empty_map_behavior.2 "r"
    (Dir.sub "s" true (Dir.file okNode Dir.empty) (Dir.file symNode Dir.empty))
    (by decide)

/-- C9.  The emptiness early-return is the only guard on the division by
`total_size`: for a non-empty map the rendering succeeds exactly when
some value is positive, and a non-empty all-zero map (as a directory of
only zero-byte files produces) does reach the `ZeroDivisionError`
branch. -/
theorem display_division_guard :
    (∀ m : List (String × Nat), m ≠ [] →
      ((∃ lines, display_results m = Except.ok lines) ↔ ∃ kv ∈ m, 0 < kv.2)) ∧
    display_results [("empty", 0)] = Except.error "ZeroDivisionError" := by
  constructor
  · intro m hne
    constructor
    · rintro ⟨lines, hl⟩
      by_contra hno
      have h1 : ¬0 < valuesSum m := fun hp => hno ((valuesSum_pos_iff m).mp hp)
      rw [display_results_zero_total m hne (by omega)] at hl
      exact Except.noConfusion hl
    · intro hex
      exact ⟨_, display_results_table m hne ((valuesSum_pos_iff m).mpr hex)⟩
  · exact display_results_zero_total [("empty", 0)] (by decide) (by decide)

/-- C9 witness: a concrete non-empty map with one zero and one positive
entry. -/
theorem display_division_guard_witness :
    (∃ lines, display_results [("a", 0), ("b", 2)] = Except.ok lines) ↔
      ∃ kv ∈ [("a", 0), ("b", 2)], 0 < kv.2 :=
  display_division_guard.1 [("a", 0), ("b", 2)] (by decide)

/-- What the world outside `main` determines: whether the CLI path
exists, whether it is a directory, and the tree found there. -/
structure Env where
  dirExists : Bool
  dirIsDir : Bool
  tree : Dir
  deriving DecidableEq

/-- Observable outcome of one program run: the exit status, the lines
printed to stdout, and the lines printed to stderr. -/
structure RunResult where
  exitCode : Nat
  out : List String
  err : List String
  deriving DecidableEq

/-- Embedding of `main` (src/python/main.py:106-135): validate the path
(`exit(1)` with a message naming it when missing or not a directory),
then scan and display.  An exception escaping `display_results` makes
CPython exit with status 1; `display_results` raises only from the
first row's division (total zero), by which point exactly the three
header lines of main.py:88-90 have been printed to stdout, and CPython
then writes a traceback to stderr, abstracted here to its final line. -/
def main_run (dirArg : String) (env : Env) : RunResult :=
  if !env.dirExists then
    ⟨1, [], ["Error: Directory '" ++ dirArg ++ "' does not exist."]⟩
  else if !env.dirIsDir then
    ⟨1, [], ["Error: '" ++ dirArg ++ "' is not a directory."]⟩
  else
    let st := scan_directory dirArg env.tree
    match display_results st.map with
    | Except.ok lines => ⟨0, lines, st.warnings.map Warning.render⟩
    | Except.error e =>
      ⟨1, ["\n" ++ sep70, headerRow, sep70],
       st.warnings.map Warning.render ++ [e ++ ": division by zero"]⟩

/-- C6 counterexample: a valid directory containing a single zero-byte
file classified successfully — the path checks pass, yet the program
exits 1 (uncaught `ZeroDivisionError`): stdout holds only the table
header printed before the raise (no report rows, no total), stderr the
traceback, refuting "otherwise ... exits 0". -/
theorem main_run_exit_cex :
    main_run "d" ⟨true, true, Dir.file ⟨"z", false, Except.ok 0, Except.ok "empty"⟩ Dir.empty⟩ =
      ⟨1, ["\n" ++ sep70, headerRow, sep70], ["ZeroDivisionError: division by zero"]⟩ := by
  decide

/-- C6 (amended: exit 0 except when the scan yields a non-empty all-zero
map, in which case `display_results` raises `ZeroDivisionError` after
printing only the table-header lines and the program exits non-zero
with the traceback on stderr and no report rows).  A missing path or a
non-directory path exits non-zero with a stderr message naming the path
and no stdout; a valid directory whose scan yields an empty map or a
positive total prints the report (or the no-files message) to stdout
and exits 0 — the per-file warnings on stderr never influence the exit
code. -/
theorem main_run_exit_spec (d : String) (env : Env) :
    (env.dirExists = false →
      main_run d env = ⟨1, [], ["Error: Directory '" ++ d ++ "' does not exist."]⟩) ∧
    (env.dirExists = true → env.dirIsDir = false →
      main_run d env = ⟨1, [], ["Error: '" ++ d ++ "' is not a directory."]⟩) ∧
    (env.dirExists = true → env.dirIsDir = true →
      ((scan_directory d env.tree).map = [] ∨
        0 < valuesSum (scan_directory d env.tree).map) →
      ∃ lines, display_results (scan_directory d env.tree).map = Except.ok lines ∧
        main_run d env =
          ⟨0, lines, (scan_directory d env.tree).warnings.map Warning.render⟩) ∧
    (env.dirExists = true → env.dirIsDir = true →
      (scan_directory d env.tree).map ≠ [] →
      valuesSum (scan_directory d env.tree).map = 0 →
      main_run d env =
        ⟨1, ["\n" ++ sep70, headerRow, sep70],
         (scan_directory d env.tree).warnings.map Warning.render ++
           ["ZeroDivisionError: division by zero"]⟩) := by
  refine ⟨?_, ?_, ?_, ?_⟩
  · intro h
    simp [main_run, h]
  · intro h1 h2
    simp [main_run, h1, h2]
  · intro h1 h2 h3
    have hok : ∃ lines,
        display_results (scan_directory d env.tree).map = Except.ok lines := by
      rcases h3 with hempty | hpos
      · exact ⟨_, by rw [hempty]; rfl⟩
      · have hne : (scan_directory d env.tree).map ≠ [] := by
          intro hm
          rw [hm] at hpos
          simp [valuesSum] at hpos
        exact ⟨_, display_results_table _ hne hpos⟩
    obtain ⟨lines, hl⟩ := hok
    refine ⟨lines, hl, ?_⟩
    simp [main_run, h1, h2, hl]
  · intro h1 h2 hne hz
    simp [main_run, h1, h2, display_results_zero_total _ hne hz]

/-- C6 witness: the missing-path branch on a concrete environment. -/
theorem main_run_exit_spec_witness :
    main_run "missing" ⟨false, false, Dir.empty⟩ =
      ⟨1, [], ["Error: Directory '" ++ "missing" ++ "' does not exist."]⟩ :=
  (main_run_exit_spec "missing" ⟨false, false, Dir.empty⟩).1 rfl

end MagikaDirStats
